import Mathlib

/-!
Verification of the currency purchasing-power pipeline (`main.py`).

The pipeline parses currency-pair tokens, resolves FX-rate tickers and CPI
series identifiers, forward-fills the fetched time series onto a daily
calendar, intersects the calendars, resamples to monthly frequency and
computes an inflation comparison table.

The shallow embedding below follows the Python source function by function:
pure functions become Lean functions; Python exceptions (`ValueError`,
unpack and lookup failures) become an explicit `Except PipeError` result;
`float` arithmetic is modelled over `ℚ` (Lean's total division `x / 0 = 0`
stands in for the IEEE `inf`/`nan` values a Python zero division produces);
external providers (yfinance download, FRED search) are modelled as function
parameters returning the already-cleaned observation lists.
-/

namespace CrawlStock

/-- Error taxonomy of the pipeline.  The constructors cover every
`ValueError` the source can raise, together with the unpack/lookup errors
of `build_inflation_report` and the `computationError` classification the
specification prescribes for division by zero (which the source never
raises; see the C1 theorems). -/
inductive PipeError where
  | invalidPairFormat
  | emptyInput
  | rateUnavailable
  | indexSeriesUnresolved
  | noOverlappingPeriod
  | calendarMismatch
  | computationError
  | missingColumn
  | indexOutOfRange
  | pairSplitMismatch
  | noData
deriving DecidableEq, Repr

/-- Whether an `Except` result is a success. -/
def exceptOk {ε α : Type} : Except ε α → Bool
  | Except.ok _ => true
  | Except.error _ => false

/-! ## Pair Parser (`parse_currency_pairs`, `collect_currency_codes`)

Tokens are modelled as `List Char` so that trimming, uppercasing and
splitting can be reasoned about character by character. -/

/-- Embeds `raw_pair.strip().upper()` of line 44. -/
def cleanToken (t : List Char) : List Char :=
  (((t.dropWhile Char.isWhitespace).reverse.dropWhile Char.isWhitespace).reverse).map Char.toUpper

/-- Embeds `cleaned.split(sep, maxsplit=1)`: split at the first occurrence of
`sep`, returning `none` when `sep` does not occur (the `"-" not in cleaned`
check of line 47). -/
def splitFirst (sep : Char) : List Char → Option (List Char × List Char)
  | [] => none
  | c :: tl =>
    if c = sep then some ([], tl)
    else
      match splitFirst sep tl with
      | some (a, b) => some (c :: a, b)
      | none => none

/-- The token loop of `parse_currency_pairs` (lines 42-56): blank tokens are
skipped, a token without the separator or with a first-split segment of
length ≠ 3 aborts with `invalidPairFormat`, and accepted tokens are
re-rendered as `segA ++ "-" ++ segB`. -/
def parsePairsGo : List (List Char) → Except PipeError (List (List Char))
  | [] => Except.ok []
  | t :: rest =>
    let cleaned := cleanToken t
    if cleaned = [] then parsePairsGo rest
    else
      match splitFirst '-' cleaned with
      | none => Except.error PipeError.invalidPairFormat
      | some (a, b) =>
        if a.length = 3 ∧ b.length = 3 then
          match parsePairsGo rest with
          | Except.ok l => Except.ok ((a ++ '-' :: b) :: l)
          | Except.error e => Except.error e
        else Except.error PipeError.invalidPairFormat

/-- Embeds `parse_currency_pairs` (lines 39-61): the loop above followed by the
`emptyInput` check of line 58. -/
def parseCurrencyPairs (toks : List (List Char)) : Except PipeError (List (List Char)) :=
  match parsePairsGo toks with
  | Except.ok [] => Except.error PipeError.emptyInput
  | Except.ok l => Except.ok l
  | Except.error e => Except.error e

/-- Python `str.split(sep)` with no maxsplit: splits at every occurrence,
keeping empty segments (`"ABC--DE".split("-") = ["ABC", "", "DE"]`). -/
def splitAll (sep : Char) : List Char → List (List Char)
  | [] => [[]]
  | c :: tl =>
    if c = sep then [] :: splitAll sep tl
    else
      match splitAll sep tl with
      | h :: rest => (c :: h) :: rest
      | [] => [[c]]

/-- Embeds `collect_currency_codes` (lines 64-72): first-seen-order deduplication of
the full-split segments of every pair. -/
def collectCurrencyCodes (pairs : List (List Char)) : List (List Char) :=
  pairs.foldl
    (fun acc pair =>
      (splitAll '-' pair).foldl
        (fun acc2 code => if code ∈ acc2 then acc2 else acc2 ++ [code]) acc)
    []

/-! ## Index Series Resolver (`infer_cpi_series_id`)

The FRED search collaborator is a function from a query string to the rows
it returns; a row carries the columns the source consults.  The embedding
models the common provider shape in which the `id`, `title`, `frequency`,
`popularity` and `search_rank` columns are all present. -/

/-- One row of a FRED catalog search result. -/
structure SearchRow where
  id : String
  title : String
  frequency : String
  popularity : Int
  searchRank : Int
deriving DecidableEq, Repr, Inhabited

/-- The `manual_defaults` table of lines 203-224. -/
def manualDefaults : List (String × String) :=
  [("USD", "CPIAUCNS"),
   ("GBP", "GBRCPIALLMINMEI"),
   ("JPY", "JPNCPIALLMINMEI"),
   ("EUR", "CP0000EZ19M086NEST"),
   ("AUD", "AUSCPIALLMINMEI"),
   ("CAD", "CPALTT01CAM661N"),
   ("CHF", "CP0000CHM086NEST"),
   ("CNY", "CHNCPIALLMINMEI"),
   ("KRW", "KORCPIALLMINMEI"),
   ("SGD", "SGPCPIALLMINMEI")]

/-- Association-list lookup (Python `dict` membership plus indexing). -/
def lookupStr : List (String × String) → String → Option String
  | [], _ => none
  | (k, v) :: tl, c => if k = c then some v else lookupStr tl c

/-- The `search_terms` list of lines 231-236. -/
def searchTerms (code : String) : List String :=
  [code ++ " consumer price index all items",
   code ++ " consumer price index",
   code ++ " CPI",
   code]

/-- Contiguous-substring test on character lists. -/
def hasInfixCh (needle : List Char) : List Char → Bool
  | [] => needle.isEmpty
  | c :: tl => needle.isPrefixOf (c :: tl) || hasInfixCh needle tl

/-- Case-insensitive substring test (`Series.str.contains(..., case=False)`). -/
def containsCI (needle hay : String) : Bool :=
  hasInfixCh (needle.toList.map Char.toLower) (hay.toList.map Char.toLower)

/-- The candidate filtering of lines 243-251: keep monthly-frequency rows
whose title mentions "Consumer Price Index", restricted to the "All Items"
rows when any exist. -/
def filterCandidates (rows : List SearchRow) : List SearchRow :=
  let monthly := rows.filter (fun r => containsCI "Monthly" r.frequency)
  let cpiRows := monthly.filter (fun r => containsCI "Consumer Price Index" r.title)
  let allItems := cpiRows.filter (fun r => containsCI "All Items" r.title)
  if allItems = [] then cpiRows else allItems

/-- The two-column sort key of lines 256-264: descending popularity, then
ascending search rank. -/
def candKey (r : SearchRow) : Int × Int := (r.popularity, r.searchRank)

/-- The sort order induced by `candKey`. -/
def candLe (a b : SearchRow) : Prop :=
  b.popularity < a.popularity ∨ (a.popularity = b.popularity ∧ a.searchRank ≤ b.searchRank)

instance : DecidableRel candLe := fun a b =>
  decidable_of_iff
    (b.popularity < a.popularity ∨ (a.popularity = b.popularity ∧ a.searchRank ≤ b.searchRank))
    Iff.rfl

/-- Embeds `candidates.sort_values` on popularity (descending) and search
rank (ascending) of line 264.  Multi-column `sort_values` is a stable lexicographic sort
(pandas implements it with `numpy.lexsort`); `List.insertionSort` with the
total preorder `candLe` has the same stable semantics. -/
def sortCandidates (rows : List SearchRow) : List SearchRow :=
  List.insertionSort candLe rows

/-- The search-term loop of lines 238-270: skip terms whose results are
empty before or after filtering, otherwise sort and return the top row's
identifier; `indexSeriesUnresolved` when every term is exhausted
(lines 272-275). -/
def inferCpiSeriesIdGo (search : String → List SearchRow) : List String → Except PipeError String
  | [] => Except.error PipeError.indexSeriesUnresolved
  | term :: rest =>
    let results := search term
    if results = [] then inferCpiSeriesIdGo search rest
    else
      let cands := filterCandidates results
      if cands = [] then inferCpiSeriesIdGo search rest
      else
        match (sortCandidates cands).head? with
        | some top => Except.ok top.id
        | none => inferCpiSeriesIdGo search rest

/-- Embeds `infer_cpi_series_id` (lines 200-275): override mapping, then the fixed
`manual_defaults` table, then the heuristic catalog search. -/
def inferCpiSeriesId (search : String → List SearchRow) (code : String)
    (overrides : List (String × String)) : Except PipeError String :=
  match lookupStr overrides code with
  | some sid => Except.ok sid
  | none =>
    match lookupStr manualDefaults code with
    | some sid => Except.ok sid
    | none => inferCpiSeriesIdGo search (searchTerms code)

/-! ## Time series, forward fill and the Rate Source Resolver

A raw series is a list of `(day, value)` observations (dates as day
numbers, already cleaned of missing values, in increasing date order as the
providers deliver them). -/

/-- Embeds `pd.date_range(start, end, freq="D")` as day numbers (inclusive ends). -/
def dateRange (s e : ℕ) : List ℕ :=
  if e < s then [] else (List.range (e - s + 1)).map (fun i => s + i)

/-- The value of the last observation dated `≤ t`, scanning left to right
(the `asof` semantics of `resample("D").ffill()`). -/
def lastLE : List (ℕ × ℚ) → ℕ → Option ℚ
  | [], _ => none
  | p :: tl, t =>
    if p.1 ≤ t then some ((lastLE tl t).getD p.2) else lastLE tl t

/-- Date of the last observation of a series (`0` for the empty series). -/
def lastDate : List (ℕ × ℚ) → ℕ
  | [] => 0
  | [p] => p.1
  | _ :: q :: tl => lastDate (q :: tl)

/-- Embeds `series.ffill().resample("D").ffill()` (lines 171 and 297): a continuous
daily calendar from the first to the last observed date, each day carrying
the most recent observation at or before it. -/
def ffillDaily : List (ℕ × ℚ) → List (ℕ × ℚ)
  | [] => []
  | p :: tl =>
    (dateRange p.1 (lastDate (p :: tl))).map
      (fun t => (t, (lastLE (p :: tl) t).getD p.2))

/-- Specification-side reading of the forward-fill invariant: the most
recent raw observation dated at or before `t`. -/
def mostRecentLE (obs : List (ℕ × ℚ)) (t : ℕ) : Option ℚ :=
  ((obs.filter (fun q => decide (q.1 ≤ t))).getLast?).map Prod.snd

/-- Value of a series at a calendar day, `none` when the day is absent. -/
def lookupDay (s : List (ℕ × ℚ)) (t : ℕ) : Option ℚ :=
  (s.find? (fun q => decide (q.1 = t))).map Prod.snd

/-- Embeds `load_usd_fx_rate` (lines 151-177).  `fetch` models
`yf.download(...)["Close"].dropna()`; a missing frame, a missing `Close`
column and an empty post-dropna series all collapse to the empty list, the
three `continue` conditions of the source.  Returns the daily-filled series
and the ticker actually used (`none` for the reference currency). -/
def loadUsdFxRate (fetch : String → List (ℕ × ℚ)) (code : String) (startD endD : ℕ) :
    Except PipeError (List (ℕ × ℚ) × Option String) :=
  if code = "USD" then
    Except.ok ((dateRange startD endD).map (fun d => (d, (1 : ℚ))), none)
  else
    let s1 := fetch (code ++ "USD=X")
    if s1 ≠ [] then
      Except.ok (ffillDaily s1, some (code ++ "USD=X"))
    else
      let s2 := fetch ("USD" ++ code ++ "=X")
      if s2 ≠ [] then
        Except.ok ((ffillDaily s2).map (fun q => (q.1, 1 / q.2)), some ("USD" ++ code ++ "=X"))
      else Except.error PipeError.rateUnavailable

/-! ## Alignment and monthly resampling (`align_datasets`, `resample_monthly`)

A `Frame` models a pandas DataFrame: a date index plus named columns of the
same length. -/

/-- A date-indexed table of per-currency columns. -/
structure Frame where
  dates : List ℕ
  cols : List (List Char × List ℚ)
deriving DecidableEq, Repr, Inhabited

/-- Column access `df[code]`. -/
def lookupCol : List (List Char × List ℚ) → List Char → Option (List ℚ)
  | [], _ => none
  | (k, v) :: tl, c => if k = c then some v else lookupCol tl c

/-- Embeds `df.loc[ds]` for `ds ⊆ df.index`: reindex the frame onto `ds`. -/
def selectRows (f : Frame) (ds : List ℕ) : Frame :=
  ⟨ds, f.cols.map (fun kc => (kc.1, ds.map (fun d => kc.2.getD (f.dates.indexOf d) 0)))⟩

/-- Embeds `align_datasets` (lines 310-321): intersect the two indexes (kept in the
rate frame's order, the pandas result for the pipeline's sorted indexes),
fail with `noOverlappingPeriod` when empty, otherwise reindex both frames
onto the shared calendar. -/
def alignDatasets (fx cpi : Frame) : Except PipeError (Frame × Frame) :=
  let common := fx.dates.filter (fun d => decide (d ∈ cpi.dates))
  if common = [] then Except.error PipeError.noOverlappingPeriod
  else Except.ok (selectRows fx common, selectRows cpi common)

/-- The last date of each run of days in the same month (`resample("M").last()`
keeps one row per month; with abstract day numbers the representative kept
is the month's last observed day).  `monthOf` abstracts the day-to-month
map of the calendar. -/
def lastPerMonth (monthOf : ℕ → ℕ) : List ℕ → List ℕ
  | [] => []
  | [d] => [d]
  | d1 :: d2 :: tl =>
    if monthOf d1 = monthOf d2 then lastPerMonth monthOf (d2 :: tl)
    else d1 :: lastPerMonth monthOf (d2 :: tl)

/-- Embeds `resample_monthly` (lines 324-334): the `calendarMismatch` invariant
check of line 329 followed by month-end downsampling of both frames. -/
def resampleMonthly (monthOf : ℕ → ℕ) (fx cpi : Frame) : Except PipeError (Frame × Frame) :=
  if fx.dates = cpi.dates then
    Except.ok (selectRows fx (lastPerMonth monthOf fx.dates),
               selectRows cpi (lastPerMonth monthOf cpi.dates))
  else Except.error PipeError.calendarMismatch

/-! ## Purchasing-Power Calculator (`build_inflation_report`)

One record of the detail table per `(pair, month)`; field names follow the
report columns of lines 379-397 (`purchasingPower` is the "Purchasing Power
Ratio" column). -/

/-- A row of the monthly detail table. -/
structure Row where
  pair : List Char
  month : ℕ
  currencyA : List Char
  currencyB : List Char
  inflationIndexA : ℚ
  inflationIndexB : ℚ
  inflationPctA : ℚ
  inflationPctB : ℚ
  inflationDiff : ℚ
  yoyA : Option ℚ
  yoyB : Option ℚ
  fxAUsd : ℚ
  fxBUsd : ℚ
  fxAToB : ℚ
  realValueA : ℚ
  realValueB : ℚ
  purchasingPower : ℚ
deriving DecidableEq, Repr, Inhabited

/-- Positional access into a column (`series.loc[timestamp]` for the shared
index, `series.iloc[i]` for position `i`). -/
def colGet (l : List ℚ) (i : ℕ) : ℚ := l.getD i 0

/-- Lines 352-361: `initial_amount_b = base_amount * (fx_a_usd / fx_b_usd).iloc[0]`. -/
def initialAmountB (fxA fxB : List ℚ) (base : ℚ) : ℚ :=
  base * (colGet fxA 0 / colGet fxB 0)

/-- The record built for month position `i` of a pair (lines 363-398).
`pct_change(periods=12)` is undefined (`NaN`) for the first 12 positions,
hence the `Option` year-over-year fields. -/
def pairRow (pair codeA codeB : List Char) (dates : List ℕ)
    (fxA fxB cpiA cpiB : List ℚ) (base : ℚ) (i : ℕ) : Row :=
  let fxAi := colGet fxA i
  let fxBi := colGet fxB i
  let cpiAi := colGet cpiA i
  let cpiBi := colGet cpiB i
  let idxA := cpiAi / colGet cpiA 0
  let idxB := cpiBi / colGet cpiB 0
  let pctA := (idxA - 1) * 100
  let pctB := (idxB - 1) * 100
  let initB := initialAmountB fxA fxB base
  { pair := pair
    month := dates.getD i 0
    currencyA := codeA
    currencyB := codeB
    inflationIndexA := idxA
    inflationIndexB := idxB
    inflationPctA := pctA
    inflationPctB := pctB
    inflationDiff := pctA - pctB
    yoyA := if 12 ≤ i then some ((cpiAi / colGet cpiA (i - 12) - 1) * 100) else none
    yoyB := if 12 ≤ i then some ((cpiBi / colGet cpiB (i - 12) - 1) * 100) else none
    fxAUsd := fxAi
    fxBUsd := fxBi
    fxAToB := fxAi / fxBi
    realValueA := (base / idxA) * fxAi
    realValueB := (initB / idxB) * fxBi
    purchasingPower := ((base / idxA) * fxAi) / ((initB / idxB) * fxBi) }

/-- The `for timestamp in fx_monthly.index` loop (lines 377-398). -/
def pairMetrics (pair codeA codeB : List Char) (dates : List ℕ)
    (fxA fxB cpiA cpiB : List ℚ) (base : ℚ) : List Row :=
  (List.range dates.length).map (pairRow pair codeA codeB dates fxA fxB cpiA cpiB base)

/-- The per-pair body of `build_inflation_report` (lines 350-398): column
lookups (`KeyError` when a code has no column) and the `iloc[0]` accesses
(an index error on an empty frame), then the month loop.  Note there is no
validation of zero rate or index values anywhere in the body. -/
def buildPairRows (fx cpi : Frame) (pair codeA codeB : List Char) (base : ℚ) :
    Except PipeError (List Row) :=
  match lookupCol fx.cols codeA, lookupCol fx.cols codeB,
        lookupCol cpi.cols codeA, lookupCol cpi.cols codeB with
  | some fxA, some fxB, some cpiA, some cpiB =>
    if fxA = [] ∨ fxB = [] ∨ cpiA = [] ∨ cpiB = [] then
      Except.error PipeError.indexOutOfRange
    else
      Except.ok (pairMetrics pair codeA codeB fx.dates fxA fxB cpiA cpiB base)
  | _, _, _, _ => Except.error PipeError.missingColumn

/-- Lexicographic order on character lists (pandas string ordering). -/
def chListLe : List Char → List Char → Bool
  | [], _ => true
  | _ :: _, [] => false
  | a :: as, b :: bs => if a < b then true else if b < a then false else chListLe as bs

/-- The `sort_values(["Pair", "Month"])` key order of line 401. -/
def rowLeB (r1 r2 : Row) : Bool :=
  if r1.pair = r2.pair then r1.month ≤ r2.month else chListLe r1.pair r2.pair

/-- Embeds `detail_df.sort_values` by pair and month (line 401): a stable
lexicographic sort of the records. -/
def sortRows (rows : List Row) : List Row :=
  List.insertionSort (fun a b => rowLeB a b = true) rows

/-- The `for pair in pairs` loop of lines 347-398.  `code_a, code_b =
pair.split("-")` is a two-element unpack: a pair whose full split has any
other arity raises (`pairSplitMismatch`). -/
def buildReportGo (fx cpi : Frame) (base : ℚ) : List (List Char) → Except PipeError (List Row)
  | [] => Except.ok []
  | p :: rest =>
    match splitAll '-' p with
    | [a, b] =>
      match buildPairRows fx cpi p a b base, buildReportGo fx cpi base rest with
      | Except.ok rows, Except.ok more => Except.ok (rows ++ more)
      | Except.error e, _ => Except.error e
      | _, Except.error e => Except.error e
    | _ => Except.error PipeError.pairSplitMismatch

/-- Embeds `build_inflation_report` (lines 337-402): all per-pair records, sorted
by pair and month. -/
def buildInflationReport (fx cpi : Frame) (pairs : List (List Char)) (base : ℚ) :
    Except PipeError (List Row) :=
  (buildReportGo fx cpi base pairs).map sortRows

/-- Well-formedness of one pair against the monthly frames: the full split
has exactly two segments and all four columns exist and are non-empty.
These are the only conditions `build_inflation_report` ever checks; in
particular no condition on the values (zeroes included) appears. -/
def pairWf (fx cpi : Frame) (p : List Char) : Bool :=
  match splitAll '-' p with
  | [a, b] =>
    (match lookupCol fx.cols a with | some l => !l.isEmpty | none => false) &&
    (match lookupCol fx.cols b with | some l => !l.isEmpty | none => false) &&
    (match lookupCol cpi.cols a with | some l => !l.isEmpty | none => false) &&
    (match lookupCol cpi.cols b with | some l => !l.isEmpty | none => false)
  | _ => false

/-! ## Auxiliary predicates and concrete fixtures -/

/-- Strictly increasing observation dates (the shape of every provider
series consumed by the pipeline). -/
def sortedDates : List (ℕ × ℚ) → Bool
  | [] => true
  | [_] => true
  | p :: q :: tl => decide (p.1 < q.1) && sortedDates (q :: tl)

/-- Monthly FX frame with a zero-free calendar but a zero CPI value below. -/
def c1fx : Frame := ⟨[0, 1], [("AAA".toList, [1, 1]), ("BBB".toList, [1, 1])]⟩

/-- Monthly CPI frame whose AAA series hits the value `0` at the second
month. -/
def c1cpi : Frame := ⟨[0, 1], [("AAA".toList, [100, 0]), ("BBB".toList, [100, 101])]⟩

/-- The report the calculator produces on the zero-containing input. -/
def c1report : Except PipeError (List Row) :=
  buildInflationReport c1fx c1cpi ["AAA-BBB".toList] 1000

/-- Monthly FX frame of the GBP-JPY end-to-end scenario: GBP/USD 1.30 then
1.25, JPY/USD 1/150 then 1/148. -/
def c2fx : Frame := ⟨[0, 1], [("GBP".toList, [13/10, 5/4]), ("JPY".toList, [1/150, 1/148])]⟩

/-- Monthly CPI frame of the scenario: GBP 100 → 102, JPY 100 → 101. -/
def c2cpi : Frame := ⟨[0, 1], [("GBP".toList, [100, 102]), ("JPY".toList, [100, 101])]⟩

/-- The scenario's report rows (base amount 1000). -/
def c2rows : List Row :=
  (buildInflationReport c2fx c2cpi ["GBP-JPY".toList] 1000).toOption.getD []

/-- Provider stub with data for the code-first GBP ticker only. -/
def c5fetch1 : String → List (ℕ × ℚ) :=
  fun t => if t = "GBPUSD=X" then [(0, 13/10), (1, 5/4)] else []

/-- Provider stub with data for the reference-first JPY ticker only. -/
def c5fetch2 : String → List (ℕ × ℚ) :=
  fun t => if t = "USDJPY=X" then [(0, 150), (1, 148)] else []

/-- Provider stub with no data at all. -/
def c5fetchNone : String → List (ℕ × ℚ) := fun _ => []

/-- Daily FX frame over days 1-3. -/
def c7fx : Frame := ⟨[1, 2, 3], [("AAA".toList, [3, 4, 5])]⟩

/-- Daily CPI frame over days 2-4 (overlap days 2-3). -/
def c7cpi : Frame := ⟨[2, 3, 4], [("AAA".toList, [7, 8, 9])]⟩

/-- First of two catalog rows tied on popularity and search rank. -/
def c9r1 : SearchRow := ⟨"CPI1", "Consumer Price Index All Items A", "Monthly", 5, 1⟩

/-- Second catalog row with the identical sort key. -/
def c9r2 : SearchRow := ⟨"CPI2", "Consumer Price Index All Items B", "Monthly", 5, 1⟩

/-- Catalog search stub returning the two tied rows for every query. -/
def c9search : String → List SearchRow := fun _ => [c9r1, c9r2]

/-! ## General lemmas -/

lemma getD_mem_of_lt {α : Type} (d : α) : ∀ (l : List α) (i : ℕ), i < l.length → l.getD i d ∈ l := by
  intro l
  induction l with
  | nil => intro i h; simp at h
  | cons a tl ih =>
    intro i h
    cases i with
    | zero => simp
    | succ j =>
      have hj : j < tl.length := by simpa using h
      simpa using List.mem_cons_of_mem a (ih j hj)

lemma colGet_replicate {n i : ℕ} (a : ℚ) (h : i < n) : colGet (List.replicate n a) i = a := by
  induction n generalizing i with
  | zero => omega
  | succ m ih =>
    cases i with
    | zero => simp [colGet, List.replicate_succ]
    | succ j =>
      have : colGet (List.replicate m a) j = a := ih (by omega)
      simpa [colGet, List.replicate_succ] using this

lemma colGet_mem {l : List ℚ} {i : ℕ} (h : i < l.length) : colGet l i ∈ l :=
  getD_mem_of_lt 0 l i h

lemma exceptOk_map {ε α β : Type} (f : α → β) (e : Except ε α) :
    exceptOk (e.map f) = exceptOk e := by
  cases e <;> rfl

/-! ## Forward-fill lemmas (claim C6) -/

lemma lastLE_eq_filter (t : ℕ) : ∀ l : List (ℕ × ℚ),
    lastLE l t = ((l.filter (fun q => decide (q.1 ≤ t))).getLast?).map Prod.snd := by
  intro l
  induction l with
  | nil => rfl
  | cons p tl ih =>
    by_cases hp : p.1 ≤ t
    · rw [List.filter_cons, if_pos (by simpa using hp)]
      cases hft : tl.filter (fun q => decide (q.1 ≤ t)) with
      | nil =>
        rw [hft] at ih
        simp [lastLE, hp, ih]
      | cons q qs =>
        rw [hft] at ih
        have hlast : (q :: qs).getLast? = some ((q :: qs).getLast (by simp)) :=
          List.getLast?_eq_getLast_of_ne_nil (by simp)
        simp [lastLE, hp, ih, List.getLast?_cons_cons, hlast]
    · simp [List.filter_cons, hp, lastLE, ih]

lemma mem_dateRange {s e t : ℕ} : t ∈ dateRange s e ↔ s ≤ t ∧ t ≤ e := by
  unfold dateRange
  by_cases h : e < s
  · simp only [h, if_true]
    simp
    omega
  · simp only [h, if_false]
    simp only [List.mem_map, List.mem_range]
    constructor
    · rintro ⟨i, hi, rfl⟩
      omega
    · rintro ⟨h1, h2⟩
      exact ⟨t - s, by omega, by omega⟩

lemma lookupDay_map (g : ℕ → ℚ) (t : ℕ) : ∀ l : List ℕ,
    lookupDay (l.map (fun d => (d, g d))) t = if t ∈ l then some (g t) else none := by
  intro l
  induction l with
  | nil => simp [lookupDay]
  | cons d tl ih =>
    by_cases hd : d = t
    · subst hd
      simp [lookupDay, List.find?_cons]
    · have hd2 : ¬(t = d) := fun h => hd h.symm
      rw [List.map_cons]
      have hstep : lookupDay ((d, g d) :: tl.map (fun d => (d, g d))) t
          = lookupDay (tl.map (fun d => (d, g d))) t := by
        simp [lookupDay, List.find?_cons, hd]
      rw [hstep, ih]
      simp [List.mem_cons, hd2]

/-- C6: for every fetched series with increasing observation dates and
every calendar day `t` between the first and last observed dates, the
daily-filled value at `t` is the most recent raw observation at or before
`t`; days before the first observation carry no value. -/
theorem c6_forward_fill : ∀ (p : ℕ × ℚ) (tl : List (ℕ × ℚ)),
    sortedDates (p :: tl) = true → ∀ t : ℕ,
    (p.1 ≤ t → t ≤ lastDate (p :: tl) →
        lookupDay (ffillDaily (p :: tl)) t = mostRecentLE (p :: tl) t) ∧
    (t < p.1 → lookupDay (ffillDaily (p :: tl)) t = none) := by
  intro p tl hs t
  have hff : ffillDaily (p :: tl)
      = (dateRange p.1 (lastDate (p :: tl))).map
          (fun t => (t, (lastLE (p :: tl) t).getD p.2)) := by
    simp [ffillDaily]
  rw [hff, lookupDay_map]
  constructor
  · intro h1 h2
    rw [if_pos (mem_dateRange.mpr ⟨h1, h2⟩)]
    have hfull : lastLE (p :: tl) t = some ((lastLE tl t).getD p.2) := by
      simp [lastLE, h1]
    rw [mostRecentLE, ← lastLE_eq_filter, hfull]
    simp
  · intro hlt
    rw [if_neg]
    intro hmem
    have := (mem_dateRange.mp hmem).1
    omega

/-- Concrete instantiation of C6 at the series `[(2, 10), (3, 20)]`. -/
theorem c6_forward_fill_witness :
    lookupDay (ffillDaily ((2, 10) :: [((3 : ℕ), (20 : ℚ))])) 2
        = mostRecentLE ((2, 10) :: [((3 : ℕ), (20 : ℚ))]) 2 ∧
    lookupDay (ffillDaily ((2, 10) :: [((3 : ℕ), (20 : ℚ))])) 1 = none := by
  constructor
  · exact ((c6_forward_fill (2, 10) [(3, 20)] (by decide)) 2).1 (by decide) (by decide)
  · exact ((c6_forward_fill (2, 10) [(3, 20)] (by decide)) 1).2 (by decide)

/-! ## Pair-parser lemmas (claims C3 and C10) -/

lemma splitFirst_of_not_mem {sep : Char} : ∀ l : List Char, sep ∉ l → splitFirst sep l = none := by
  intro l
  induction l with
  | nil => intro _; rfl
  | cons c tl ih =>
    intro h
    have hc : ¬(c = sep) := fun hh => h (hh ▸ List.mem_cons_self c tl)
    simp [splitFirst, hc, ih (fun hm => h (List.mem_cons_of_mem c hm))]

lemma splitFirst_append {sep : Char} : ∀ (a b : List Char), sep ∉ a →
    splitFirst sep (a ++ sep :: b) = some (a, b) := by
  intro a
  induction a with
  | nil => intro b _; simp [splitFirst]
  | cons c ca ih =>
    intro b h
    have hc : ¬(c = sep) := fun hh => h (hh ▸ List.mem_cons_self c ca)
    simp [splitFirst, hc, ih b (fun hm => h (List.mem_cons_of_mem c hm))]

/-- C3: a token whose cleaned form is two 3-character segments joined by a
single separator parses to that pair; a non-blank token with no separator,
or one whose first-split segments are not both exactly 3 characters long,
fails with `invalidPairFormat`. -/
theorem c3_pair_format :
    (∀ (t a b : List Char), cleanToken t = a ++ '-' :: b → a.length = 3 → b.length = 3 →
        '-' ∉ a → '-' ∉ b →
        parseCurrencyPairs [t] = Except.ok [a ++ '-' :: b]) ∧
    (∀ t : List Char, cleanToken t ≠ [] → '-' ∉ cleanToken t →
        parseCurrencyPairs [t] = Except.error PipeError.invalidPairFormat) ∧
    (∀ (t a b : List Char), cleanToken t = a ++ '-' :: b → '-' ∉ a →
        ¬(a.length = 3 ∧ b.length = 3) →
        parseCurrencyPairs [t] = Except.error PipeError.invalidPairFormat) := by
  refine ⟨?_, ?_, ?_⟩
  · intro t a b hc ha hb hna hnb
    have hne : a ++ '-' :: b ≠ [] := by simp
    simp only [parseCurrencyPairs, parsePairsGo, hc]
    rw [if_neg hne, splitFirst_append a b hna]
    simp [ha, hb]
  · intro t hne hnm
    simp only [parseCurrencyPairs, parsePairsGo]
    rw [if_neg hne, splitFirst_of_not_mem _ hnm]
  · intro t a b hc hna hnl
    have hne : a ++ '-' :: b ≠ [] := by simp
    simp only [parseCurrencyPairs, parsePairsGo, hc]
    rw [if_neg hne, splitFirst_append a b hna]
    simp [hnl]

/-- Concrete instantiation of C3: a valid token (with surrounding blanks
and lower case), a token without separator, and a token with a short
segment. -/
theorem c3_pair_format_witness :
    parseCurrencyPairs [" gbp-jpy ".toList] = Except.ok ["GBP".toList ++ '-' :: "JPY".toList] ∧
    parseCurrencyPairs ["GBPJPY".toList] = Except.error PipeError.invalidPairFormat ∧
    parseCurrencyPairs ["GB-JPY".toList] = Except.error PipeError.invalidPairFormat := by
  refine ⟨?_, ?_, ?_⟩
  · exact c3_pair_format.1 (" gbp-jpy ".toList) ("GBP".toList) ("JPY".toList)
      (by decide) (by decide) (by decide) (by decide) (by decide)
  · exact c3_pair_format.2.1 ("GBPJPY".toList) (by decide) (by decide)
  · exact c3_pair_format.2.2 ("GB-JPY".toList) ("GB".toList) ("JPY".toList)
      (by decide) (by decide) (by decide)

/-- C10: the parser accepts the multi-separator token `"ABC--DE"` (its
first split gives the 3-character segments `"ABC"` and `"-DE"`), and the
subsequent code extraction, splitting the stored pair at every separator,
returns segments of length ≠ 3, among them the empty string — violating
the 3-character CurrencyCode invariant. -/
theorem c10_multi_separator :
    parseCurrencyPairs ["ABC--DE".toList] = Except.ok ["ABC--DE".toList] ∧
    collectCurrencyCodes ["ABC--DE".toList] = ["ABC".toList, ([] : List Char), "DE".toList] ∧
    ([] : List Char).length ≠ 3 ∧ ("DE".toList).length ≠ 3 := by
  refine ⟨by rfl, by rfl, by decide, by decide⟩

/-! ## Resolver precedence (claim C4) -/

/-- C4: a code present in the override mapping resolves to its override
value regardless of the catalog and the fixed table, and the fixed
`manual_defaults` table is consulted only for codes absent from the
overrides. -/
theorem c4_precedence : ∀ (search : String → List SearchRow) (code : String)
    (overrides : List (String × String)),
    (∀ sid, lookupStr overrides code = some sid →
        inferCpiSeriesId search code overrides = Except.ok sid) ∧
    (lookupStr overrides code = none → ∀ sid, lookupStr manualDefaults code = some sid →
        inferCpiSeriesId search code overrides = Except.ok sid) := by
  intro search code overrides
  constructor
  · intro sid h
    unfold inferCpiSeriesId
    rw [h]
  · intro h sid h2
    unfold inferCpiSeriesId
    rw [h, h2]

/-- Concrete instantiation of C4: the override `GBP ↦ X123` wins over the
fixed mapping `GBP ↦ GBRCPIALLMINMEI`, which applies only without the
override. -/
theorem c4_precedence_witness :
    inferCpiSeriesId (fun _ => []) "GBP" [("GBP", "X123")] = Except.ok "X123" ∧
    lookupStr manualDefaults "GBP" = some "GBRCPIALLMINMEI" ∧
    inferCpiSeriesId (fun _ => []) "GBP" [] = Except.ok "GBRCPIALLMINMEI" := by
  refine ⟨?_, rfl, ?_⟩
  · exact (c4_precedence (fun _ => []) "GBP" [("GBP", "X123")]).1 "X123" (by decide)
  · exact (c4_precedence (fun _ => []) "GBP" []).2 (by decide) "GBRCPIALLMINMEI" (by decide)

/-! ## Rate Source Resolver (claim C5) -/

/-- C5: the reference currency resolves to the constant unit quote with no
provider identifier and independently of the fetch collaborator; any other
code tries the code-first ticker un-inverted, then the reference-first
ticker with reciprocal transform, accepting the first candidate with a
non-empty observation list, and fails with `rateUnavailable` when both are
empty. -/
theorem c5_rate_resolver : ∀ (f g : String → List (ℕ × ℚ)) (code : String) (s e : ℕ),
    (loadUsdFxRate f "USD" s e = loadUsdFxRate g "USD" s e) ∧
    (loadUsdFxRate f "USD" s e
        = Except.ok ((dateRange s e).map (fun d => (d, (1 : ℚ))), none)) ∧
    (code ≠ "USD" → f (code ++ "USD=X") ≠ [] →
        loadUsdFxRate f code s e
          = Except.ok (ffillDaily (f (code ++ "USD=X")), some (code ++ "USD=X"))) ∧
    (code ≠ "USD" → f (code ++ "USD=X") = [] → f ("USD" ++ code ++ "=X") ≠ [] →
        loadUsdFxRate f code s e
          = Except.ok ((ffillDaily (f ("USD" ++ code ++ "=X"))).map (fun q => (q.1, 1 / q.2)),
              some ("USD" ++ code ++ "=X"))) ∧
    (code ≠ "USD" → f (code ++ "USD=X") = [] → f ("USD" ++ code ++ "=X") = [] →
        loadUsdFxRate f code s e = Except.error PipeError.rateUnavailable) := by
  intro f g code s e
  refine ⟨rfl, rfl, ?_, ?_, ?_⟩
  · intro hcode h1
    unfold loadUsdFxRate
    rw [if_neg hcode, if_pos h1]
  · intro hcode h1 h2
    unfold loadUsdFxRate
    rw [if_neg hcode, if_neg (fun hcon => hcon h1), if_pos h2]
  · intro hcode h1 h2
    unfold loadUsdFxRate
    rw [if_neg hcode, if_neg (fun hcon => hcon h1), if_neg (fun hcon => hcon h2)]

/-- Concrete instantiation of C5 on stub providers: the code-first GBP
ticker accepted un-inverted, the reference-first JPY ticker accepted with
reciprocal transform, and the failure when no candidate has data. -/
theorem c5_rate_resolver_witness :
    loadUsdFxRate c5fetch1 "USD" 0 2 = loadUsdFxRate c5fetchNone "USD" 0 2 ∧
    loadUsdFxRate c5fetch1 "GBP" 0 2
      = Except.ok (ffillDaily (c5fetch1 ("GBP" ++ "USD=X")), some ("GBP" ++ "USD=X")) ∧
    loadUsdFxRate c5fetch2 "JPY" 0 2
      = Except.ok ((ffillDaily (c5fetch2 ("USD" ++ "JPY" ++ "=X"))).map (fun q => (q.1, 1 / q.2)),
          some ("USD" ++ "JPY" ++ "=X")) ∧
    loadUsdFxRate c5fetchNone "JPY" 0 2 = Except.error PipeError.rateUnavailable := by
  refine ⟨?_, ?_, ?_, ?_⟩
  · exact (c5_rate_resolver c5fetch1 c5fetchNone "USD" 0 2).1
  · exact (c5_rate_resolver c5fetch1 c5fetch1 "GBP" 0 2).2.2.1 (by decide) (by decide)
  · exact (c5_rate_resolver c5fetch2 c5fetch2 "JPY" 0 2).2.2.2.1 (by decide) (by decide) (by decide)
  · exact (c5_rate_resolver c5fetchNone c5fetchNone "JPY" 0 2).2.2.2.2 (by decide) (by decide) (by decide)

/-! ## Stability of the candidate sort (claim C9) -/

lemma candLe_of_key_eq {a b : SearchRow} (h : candKey a = candKey b) : candLe a b := by
  have h1 : a.popularity = b.popularity := congrArg Prod.fst h
  have h2 : a.searchRank = b.searchRank := congrArg Prod.snd h
  exact Or.inr ⟨h1, le_of_eq h2⟩

lemma filter_orderedInsert (a : SearchRow) (k : Int × Int) : ∀ m : List SearchRow,
    (List.orderedInsert candLe a m).filter (fun c => decide (candKey c = k))
      = if candKey a = k then a :: m.filter (fun c => decide (candKey c = k))
        else m.filter (fun c => decide (candKey c = k)) := by
  intro m
  induction m with
  | nil =>
    by_cases hk : candKey a = k <;> simp [List.orderedInsert, List.filter_cons, hk]
  | cons b m2 ih =>
    by_cases hab : candLe a b
    · by_cases hk : candKey a = k <;>
        simp [List.orderedInsert, hab, List.filter_cons, hk]
    · have hkb : candKey b ≠ candKey a := fun h => hab (candLe_of_key_eq h.symm)
      by_cases hk : candKey a = k
      · have hbk : ¬(candKey b = k) := fun h => hkb (h.trans hk.symm)
        simp [List.orderedInsert, hab, List.filter_cons, hk, hbk, ih]
      · by_cases hbk : candKey b = k <;>
          simp [List.orderedInsert, hab, List.filter_cons, hk, hbk, ih]

lemma sortCandidates_filter_key (k : Int × Int) : ∀ l : List SearchRow,
    (sortCandidates l).filter (fun c => decide (candKey c = k))
      = l.filter (fun c => decide (candKey c = k)) := by
  intro l
  induction l with
  | nil => rfl
  | cons a tl ih =>
    have hsort : sortCandidates (a :: tl) = List.orderedInsert candLe a (sortCandidates tl) := rfl
    rw [hsort, filter_orderedInsert, ih]
    by_cases hk : candKey a = k <;> simp [List.filter_cons, hk]

/-- C9: the candidate sort used by the resolver is stable — filtering the
sorted candidates down to any fixed sort key gives exactly the same
sequence as filtering the raw catalog order, so candidates tied on both
keys retain their catalog order; consequently a list of all-tied
candidates keeps its first element on top, and the resolver returns the
first catalog row's identifier for it, the same one on every run over the
same catalog state. -/
theorem c9_stable_sort :
    (∀ (l : List SearchRow) (k : Int × Int),
        (sortCandidates l).filter (fun c => decide (candKey c = k))
          = l.filter (fun c => decide (candKey c = k))) ∧
    (∀ l : List SearchRow, (∀ a ∈ l, ∀ b ∈ l, candKey a = candKey b) →
        sortCandidates l = l) ∧
    (∀ (search : String → List SearchRow) (term : String) (rest : List String)
        (top : SearchRow),
        search term ≠ [] → filterCandidates (search term) ≠ [] →
        (sortCandidates (filterCandidates (search term))).head? = some top →
        inferCpiSeriesIdGo search (term :: rest) = Except.ok top.id) := by
  refine ⟨fun l k => sortCandidates_filter_key k l, ?_, ?_⟩
  · intro l hall
    cases l with
    | nil => rfl
    | cons a tl =>
      have hsub : ∀ c ∈ sortCandidates (a :: tl), c ∈ a :: tl :=
        fun c hc => (List.perm_insertionSort candLe (a :: tl)).subset hc
      have h1 : (a :: tl).filter (fun c => decide (candKey c = candKey a)) = a :: tl :=
        List.filter_eq_self.mpr
          (fun c hc => by simp [hall c hc a (List.mem_cons_self a tl)])
      have h2 : (sortCandidates (a :: tl)).filter (fun c => decide (candKey c = candKey a))
          = sortCandidates (a :: tl) :=
        List.filter_eq_self.mpr
          (fun c hc => by simp [hall c (hsub c hc) a (List.mem_cons_self a tl)])
      have := sortCandidates_filter_key (candKey a) (a :: tl)
      rw [h1, h2] at this
      exact this
  · intro search term rest top hne hfil htop
    unfold inferCpiSeriesIdGo
    rw [if_neg hne, if_neg hfil, htop]

/-- Concrete instantiation of C9: two catalog rows tied on popularity and
search rank keep their catalog order through the sort, and the resolver
selects the first one. -/
theorem c9_stable_sort_witness :
    sortCandidates [c9r1, c9r2] = [c9r1, c9r2] ∧
    inferCpiSeriesIdGo c9search ["ZZZ consumer price index all items"] = Except.ok c9r1.id := by
  constructor
  · exact c9_stable_sort.2.1 [c9r1, c9r2] (by decide)
  · exact c9_stable_sort.2.2 c9search "ZZZ consumer price index all items" [] c9r1
      (by decide) (by decide) (by decide)

/-! ## Alignment (claim C7) -/

/-- C7: alignment fails with `noOverlappingPeriod` exactly when the two
calendars share no date; on success the two frames carry the identical
calendar, so the `calendarMismatch` branch of the monthly resampler can
never fire on alignment output. -/
theorem c7_alignment : ∀ fx cpi : Frame,
    ((alignDatasets fx cpi = Except.error PipeError.noOverlappingPeriod)
        ↔ ∀ d ∈ fx.dates, d ∉ cpi.dates) ∧
    (∀ fa ca, alignDatasets fx cpi = Except.ok (fa, ca) →
        fa.dates = ca.dates ∧
        ∀ monthOf : ℕ → ℕ, exceptOk (resampleMonthly monthOf fa ca) = true) := by
  intro fx cpi
  by_cases h : fx.dates.filter (fun d => decide (d ∈ cpi.dates)) = []
  · constructor
    · have hiff : ∀ d ∈ fx.dates, d ∉ cpi.dates := by
        intro d hd
        have := List.filter_eq_nil_iff.mp h d hd
        simpa using this
      exact iff_of_true (by simp [alignDatasets, h]) hiff
    · intro fa ca hok
      simp [alignDatasets, h] at hok
  · constructor
    · refine iff_of_false (by simp [alignDatasets, h]) ?_
      intro hall
      apply h
      exact List.filter_eq_nil_iff.mpr (fun d hd => by simpa using hall d hd)
    · intro fa ca hok
      simp only [alignDatasets] at hok
      rw [if_neg h] at hok
      have hpair := Except.ok.inj hok
      have hfa : fa = selectRows fx (fx.dates.filter (fun d => decide (d ∈ cpi.dates))) :=
        (congrArg Prod.fst hpair).symm
      have hca : ca = selectRows cpi (fx.dates.filter (fun d => decide (d ∈ cpi.dates))) :=
        (congrArg Prod.snd hpair).symm
      subst hfa
      subst hca
      refine ⟨rfl, ?_⟩
      intro monthOf
      unfold resampleMonthly
      have hc : (selectRows fx (fx.dates.filter (fun d => decide (d ∈ cpi.dates)))).dates
          = (selectRows cpi (fx.dates.filter (fun d => decide (d ∈ cpi.dates)))).dates := rfl
      rw [if_pos hc]
      rfl

/-- Concrete instantiation of C7: calendars `[1, 2, 3]` and `[2, 3, 4]`
align onto the shared calendar `[2, 3]` and resample without a calendar
mismatch. -/
theorem c7_alignment_witness :
    (selectRows c7fx [2, 3]).dates = (selectRows c7cpi [2, 3]).dates ∧
    exceptOk (resampleMonthly (fun d => d) (selectRows c7fx [2, 3]) (selectRows c7cpi [2, 3]))
      = true := by
  have h := (c7_alignment c7fx c7cpi).2 (selectRows c7fx [2, 3]) (selectRows c7cpi [2, 3]) rfl
  exact ⟨h.1, h.2 (fun d => d)⟩

/-! ## The calculator never raises on zero values (claim C1) -/

lemma ne_nil_of_isEmpty_false {α : Type} {l : List α} (h : l.isEmpty = false) : l ≠ [] := by
  cases l with
  | nil => simp at h
  | cons a tl => simp

lemma buildPairRows_ok_of_wf (fx cpi : Frame) (p : List Char) (base : ℚ)
    (h : pairWf fx cpi p = true) :
    ∃ a b, splitAll '-' p = [a, b] ∧ exceptOk (buildPairRows fx cpi p a b base) = true := by
  unfold pairWf at h
  split at h
  case h_2 => exact absurd h (by simp)
  case h_1 a b heq =>
    refine ⟨a, b, heq, ?_⟩
    simp only [Bool.and_eq_true] at h
    obtain ⟨⟨⟨h1, h2⟩, h3⟩, h4⟩ := h
    unfold buildPairRows
    split
    case h_2 hmatch =>
      exfalso
      cases hfa : lookupCol fx.cols a with
      | none => rw [hfa] at h1; simp at h1
      | some la =>
        cases hfb : lookupCol fx.cols b with
        | none => rw [hfb] at h2; simp at h2
        | some lb =>
          cases hca : lookupCol cpi.cols a with
          | none => rw [hca] at h3; simp at h3
          | some lc =>
            cases hcb : lookupCol cpi.cols b with
            | none => rw [hcb] at h4; simp at h4
            | some ld => exact hmatch la lb lc ld hfa hfb hca hcb
    case h_1 la lb lc ld hfa hfb hca hcb =>
      rw [hfa] at h1
      rw [hfb] at h2
      rw [hca] at h3
      rw [hcb] at h4
      rw [if_neg]
      · rfl
      · simp only [Bool.not_eq_eq_eq_not, Bool.not_true] at h1 h2 h3 h4
        simp [ne_nil_of_isEmpty_false h1, ne_nil_of_isEmpty_false h2,
          ne_nil_of_isEmpty_false h3, ne_nil_of_isEmpty_false h4]

lemma buildReportGo_ok (fx cpi : Frame) (base : ℚ) : ∀ pairs : List (List Char),
    (∀ p ∈ pairs, pairWf fx cpi p = true) →
    exceptOk (buildReportGo fx cpi base pairs) = true := by
  intro pairs
  induction pairs with
  | nil => intro _; rfl
  | cons p rest ih =>
    intro hall
    obtain ⟨a, b, hs, hok⟩ :=
      buildPairRows_ok_of_wf fx cpi p base (hall p (List.mem_cons_self p rest))
    have hrest := ih (fun q hq => hall q (List.mem_cons_of_mem p hq))
    unfold buildReportGo
    rw [hs]
    dsimp only
    cases hbp : buildPairRows fx cpi p a b base with
    | error e => rw [hbp] at hok; simp [exceptOk] at hok
    | ok rows =>
      cases hbr : buildReportGo fx cpi base rest with
      | error e => rw [hbr] at hrest; simp [exceptOk] at hrest
      | ok more => rfl

/-- C1 (amended): for every well-formed input — pairs splitting into two
codes whose four columns exist and are non-empty — the calculator always
succeeds; it performs no zero-value validation and never classifies a
division by zero as `computationError`, emitting the resulting ill-defined
values (IEEE infinities in the Python source, the `x / 0 = 0` junk value in
this embedding) into the table instead. -/
theorem c1_no_computation_error : ∀ (fx cpi : Frame) (pairs : List (List Char)) (base : ℚ),
    (∀ p ∈ pairs, pairWf fx cpi p = true) →
    exceptOk (buildInflationReport fx cpi pairs base) = true := by
  intro fx cpi pairs base hall
  unfold buildInflationReport
  rw [exceptOk_map]
  exact buildReportGo_ok fx cpi base pairs hall

/-- Concrete instantiation of C1 (amended) on an input whose CPI series
contains a zero value. -/
theorem c1_no_computation_error_witness : exceptOk c1report = true :=
  c1_no_computation_error c1fx c1cpi ["AAA-BBB".toList] 1000 (by decide)

/-- C1 counterexample: on a pair whose CPI series is zero at the second
month, the calculator does not fail with `computationError` — it returns a
table whose second row carries the degenerate inflation index `0` (the
Python computation divides by it and silently produces `inf`). -/
theorem c1_counterexample :
    lookupCol c1cpi.cols ("AAA".toList) = some [100, 0] ∧
    c1report ≠ Except.error PipeError.computationError ∧
    exceptOk c1report = true ∧
    ((c1report.toOption.getD []).getD 1 default).inflationIndexA = 0 := by
  refine ⟨rfl, ?_, rfl, ?_⟩
  · intro hcon
    have hok : exceptOk c1report = true := rfl
    rw [hcon] at hok
    simp [exceptOk] at hok
  · show (pairRow ("AAA-BBB".toList) ("AAA".toList) ("BBB".toList) [0, 1]
        [1, 1] [1, 1] [100, 0] [100, 101] 1000 1).inflationIndexA = 0
    simp [pairRow, colGet]

/-! ## The GBP-JPY end-to-end scenario (claim C2) -/

lemma c2_rows_eval : c2rows
    = [pairRow ("GBP-JPY".toList) ("GBP".toList) ("JPY".toList) [0, 1]
         [13/10, 5/4] [1/150, 1/148] [100, 102] [100, 101] 1000 0,
       pairRow ("GBP-JPY".toList) ("GBP".toList) ("JPY".toList) [0, 1]
         [13/10, 5/4] [1/150, 1/148] [100, 102] [100, 101] 1000 1] := rfl

/-- C2 counterexample: on the scenario input the calculator's
`realValueB(t1)` is `4875000/3737 ≈ 1304.52`, more than a tenth below the
claimed `≈ 1304.75`. -/
theorem c2_counterexample :
    (c2rows.getD 1 default).realValueB + 1/10 < 130475/100 := by
  rw [c2_rows_eval]
  simp [pairRow, colGet, initialAmountB]
  norm_num

/-- C2 (amended): the scenario yields `inflationIndexA = 1.02`,
`realValueA(t1) = (1000/1.02) × 1.25 = 62500/51 ≈ 1225.49`,
`initialAmountB = 195000`, `inflationIndexB = 1.01` and
`realValueB(t1) = (195000/1.01) × (1/148) = 4875000/3737 ≈ 1304.52`
(the spec's `≈ 1304.75` corrected to `≈ 1304.52`). -/
theorem c2_scenario :
    (c2rows.getD 1 default).inflationIndexA = 51/50 ∧
    (c2rows.getD 1 default).realValueA = 62500/51 ∧
    122549/100 - 1/100 < (c2rows.getD 1 default).realValueA ∧
    (c2rows.getD 1 default).realValueA < 122549/100 + 1/100 ∧
    initialAmountB [13/10, 5/4] [1/150, 1/148] 1000 = 195000 ∧
    (c2rows.getD 1 default).inflationIndexB = 101/100 ∧
    (c2rows.getD 1 default).realValueB = 4875000/3737 ∧
    130452/100 - 1/100 < (c2rows.getD 1 default).realValueB ∧
    (c2rows.getD 1 default).realValueB < 130452/100 + 1/100 := by
  rw [c2_rows_eval]
  refine ⟨?_, ?_, ?_, ?_, ?_, ?_, ?_, ?_, ?_⟩
  all_goals simp [pairRow, colGet, initialAmountB]
  all_goals norm_num

/-! ## Degenerate pair USD-USD (claim C8) -/

/-- C8: for the pair of the reference currency against itself, both legs
are computed from the identical unit-rate column and the identical CPI
column, so the purchasing-power ratio is `1` on every row of the report
(given a nonzero base amount and nonzero CPI observations, without which
the ratio is the ill-defined `0/0`). -/
theorem c8_usd_usd : ∀ (dates : List ℕ) (cpiVals : List ℚ) (base : ℚ),
    dates ≠ [] → cpiVals.length = dates.length →
    (∀ v ∈ cpiVals, v ≠ 0) → base ≠ 0 →
    ∀ r ∈ (buildInflationReport
        (Frame.mk dates [("USD".toList, List.replicate dates.length 1)])
        (Frame.mk dates [("USD".toList, cpiVals)])
        ["USD-USD".toList] base).toOption.getD [],
      r.purchasingPower = 1 := by
  intro dates cpiVals base hne hlen hnz hb r hr
  have hn : 0 < dates.length := by
    cases dates with
    | nil => exact absurd rfl hne
    | cons d tl => simp
  have hrep_ne : List.replicate dates.length (1 : ℚ) ≠ [] := by
    cases hd : dates.length with
    | zero => omega
    | succ m => simp [List.replicate_succ]
  have hcpi_ne : cpiVals ≠ [] := by
    intro hcon
    rw [hcon] at hlen
    have h0 : (0 : ℕ) = dates.length := hlen
    omega
  have hreport : buildInflationReport
      (Frame.mk dates [("USD".toList, List.replicate dates.length 1)])
      (Frame.mk dates [("USD".toList, cpiVals)])
      ["USD-USD".toList] base
      = Except.ok (sortRows (pairMetrics ("USD-USD".toList) ("USD".toList) ("USD".toList)
          dates (List.replicate dates.length 1) (List.replicate dates.length 1)
          cpiVals cpiVals base)) := by
    have hsplit : splitAll '-' ("USD-USD".toList) = ["USD".toList, "USD".toList] := rfl
    simp only [buildInflationReport, buildReportGo, hsplit, buildPairRows, lookupCol,
      eq_self_iff_true, if_true]
    rw [if_neg (by simp [hrep_ne, hcpi_ne])]
    simp [Except.map, List.append_nil]
  rw [hreport] at hr
  have hr2 : r ∈ sortRows (pairMetrics ("USD-USD".toList) ("USD".toList) ("USD".toList)
      dates (List.replicate dates.length 1) (List.replicate dates.length 1)
      cpiVals cpiVals base) := hr
  have hr3 : r ∈ pairMetrics ("USD-USD".toList) ("USD".toList) ("USD".toList)
      dates (List.replicate dates.length 1) (List.replicate dates.length 1)
      cpiVals cpiVals base :=
    (List.perm_insertionSort _ _).subset hr2
  unfold pairMetrics at hr3
  obtain ⟨i, hi, rfl⟩ := List.mem_map.mp hr3
  have hilt : i < dates.length := List.mem_range.mp hi
  have hfx_i : colGet (List.replicate dates.length (1 : ℚ)) i = 1 := colGet_replicate 1 hilt
  have hfx_0 : colGet (List.replicate dates.length (1 : ℚ)) 0 = 1 := colGet_replicate 1 hn
  have hci : colGet cpiVals i ≠ 0 := hnz _ (colGet_mem (by rw [hlen]; exact hilt))
  have hc0 : colGet cpiVals 0 ≠ 0 := hnz _ (colGet_mem (by rw [hlen]; exact hn))
  have hq : colGet cpiVals i / colGet cpiVals 0 ≠ 0 := div_ne_zero hci hc0
  simp only [pairRow, initialAmountB, hfx_i, hfx_0]
  rw [mul_one, mul_one]
  have h11 : (1 : ℚ) / 1 = 1 := by norm_num
  rw [h11, mul_one]
  exact div_self (div_ne_zero hb hq)

/-- Concrete instantiation of C8 on a two-month calendar with CPI values
100 and 102. -/
theorem c8_usd_usd_witness :
    (((buildInflationReport
        (Frame.mk [0, 1] [("USD".toList, List.replicate (List.length ([0, 1] : List ℕ)) 1)])
        (Frame.mk [0, 1] [("USD".toList, [100, 102])])
        ["USD-USD".toList] 1000).toOption.getD []).getD 0 default).purchasingPower = 1 := by
  apply c8_usd_usd [0, 1] [100, 102] 1000 (by decide) (by decide)
    (by intro v hv; fin_cases hv <;> norm_num) (by norm_num)
  apply getD_mem_of_lt
  decide

end CrawlStock
